import Mathlib

/-!
Verification development for the Google-Maps scraper agent.

The Python sources (`google_maps_scraper_agent.py`, `stealth_config.py`) are
shallowly embedded below: pure fragments become Lean functions, stateful
classes become explicit state passing, network / DOM effects become oracle
parameters, and Python exceptions become `Except` / `Option` results.
-/

namespace GMaps

/-! ## String helpers

Python's `needle in hay` on lowered strings (used by `CaptchaDetector`) is
embedded as a substring scan over the lowered character lists.
-/

/-- `needle.isPrefixOf`-based substring scan over a character list. -/
def containsChars (needle : List Char) : List Char → Bool
  | [] => needle.isEmpty
  | c :: rest => needle.isPrefixOf (c :: rest) || containsChars needle rest

/-- Python `str.lower`, character by character. -/
def lowerChars (s : String) : List Char :=
  s.data.map Char.toLower

/-- Python `needle in hay.lower()` where `needle` is already lower-case. -/
def containsLower (hay needle : String) : Bool :=
  containsChars needle.data (lowerChars hay)

/-! ## CAPTCHA detection (`stealth_config.py`, `CaptchaDetector`) -/

/-- `CaptchaType` enum from `stealth_config.py`. -/
inductive CaptchaType where
  | recaptchaV2
  | recaptchaV3
  | hcaptcha
  | funcaptcha
  | unknown
deriving DecidableEq, Repr

/-- `CaptchaDetector.CAPTCHA_INDICATORS` from `stealth_config.py`. -/
def CAPTCHA_INDICATORS : List String :=
  [ "g-recaptcha", "recaptcha", "grecaptcha", "rc-anchor", "rc-imageselect",
    "h-captcha", "hcaptcha",
    "captcha", "challenge", "verify you are human", "are you a robot",
    "prove you're not a robot", "unusual traffic", "automated queries" ]

/-- `CaptchaDetector.detect_captcha`, as a pure function of the page content
string (the `page.content()` result).  Mirrors the branch order of the
Python source. -/
def detectCaptcha (content : String) : Bool × Option CaptchaType :=
  if containsLower content "g-recaptcha" || containsLower content "grecaptcha" then
    if containsLower content "recaptcha/api2/anchor" then
      (true, some CaptchaType.recaptchaV2)
    else
      (true, some CaptchaType.recaptchaV3)
  else if containsLower content "h-captcha" || containsLower content "hcaptcha" then
    (true, some CaptchaType.hcaptcha)
  else if containsLower content "funcaptcha" || containsLower content "arkoselabs" then
    (true, some CaptchaType.funcaptcha)
  else if CAPTCHA_INDICATORS.any (fun ind => containsLower content ind) then
    (true, some CaptchaType.unknown)
  else if containsLower content "unusual traffic" || containsLower content "automated queries" then
    (true, some CaptchaType.recaptchaV2)
  else
    (false, none)

/-- The explicit reCAPTCHA markers of the first branch. -/
def recMark (c : String) : Bool :=
  containsLower c "g-recaptcha" || containsLower c "grecaptcha"

/-- The hCaptcha markers of the second branch. -/
def hcapMark (c : String) : Bool :=
  containsLower c "h-captcha" || containsLower c "hcaptcha"

/-- The FunCaptcha markers of the third branch. -/
def funMark (c : String) : Bool :=
  containsLower c "funcaptcha" || containsLower c "arkoselabs"

/-- The generic indicator scan of the fourth branch. -/
def genericHit (c : String) : Bool :=
  CAPTCHA_INDICATORS.any (fun ind => containsLower c ind)

/-! ## 2Captcha submit/poll protocol (`stealth_config.py`, `CaptchaSolver`) -/

/-- A JSON response from the 2Captcha service: the `status` and `request`
fields read with `result.get(...)`. -/
structure PollResp where
  status : Option Nat
  request : Option String
deriving DecidableEq, Repr

/-- The service's "not ready yet" poll response. -/
def notReadyResp : PollResp :=
  { status := none, request := some "CAPCHA_NOT_READY" }

/-- A solved poll response carrying the token. -/
def solvedResp (token : String) : PollResp :=
  { status := some 1, request := some token }

/-- The poll loop of `CaptchaSolver._solve_with_2captcha`: up to `fuel`
polls starting at poll index `i`, the service modelled by the oracle.
Returns the token (if any) and the number of polls actually made. -/
def pollLoop (oracle : Nat → PollResp) : Nat → Nat → Option String × Nat
  | 0, _ => (none, 0)
  | fuel + 1, i =>
    let r := oracle i
    if r.status = some 1 then
      (r.request, 1)
    else if r.request ≠ some "CAPCHA_NOT_READY" then
      (none, 1)
    else
      let rest := pollLoop oracle fuel (i + 1)
      (rest.1, rest.2 + 1)

/-- `CaptchaSolver._solve_with_2captcha`: a submit response followed by at
most 30 polls of the `res.php` endpoint. -/
def solveWith2captcha (submit : PollResp) (oracle : Nat → PollResp) :
    Option String × Nat :=
  if submit.status ≠ some 1 then
    (none, 0)
  else
    pollLoop oracle 30 0

/-! ## Proxy pool (`stealth_config.py`, `ProxyManager`) -/

/-- `ProxyInfo` dataclass (the wall-clock `last_used` field is not
modelled). -/
structure ProxyInfo where
  url : String
  failed_count : Nat := 0
deriving DecidableEq, Repr

/-- `ProxyManager` state: the proxy list and the rotation cursor. -/
structure ProxyManager where
  proxies : List ProxyInfo
  currentIndex : Nat := 0
deriving DecidableEq, Repr

/-- The `for _ in range(len(self.proxies))` scan of `ProxyManager.get_proxy`:
starting at `idx`, advance round-robin for at most `fuel` steps and return
the index of the first proxy with `failed_count < 3`. -/
def getProxyLoop (ps : List ProxyInfo) : Nat → Nat → Option Nat
  | _, 0 => none
  | idx, fuel + 1 =>
    match ps.get? idx with
    | none => none
    | some p =>
      if p.failed_count < 3 then some idx
      else getProxyLoop ps ((idx + 1) % ps.length) fuel

/-- `ProxyManager.get_proxy`.  When rotation is disabled the first proxy is
returned unconditionally; under rotation the round-robin scan is used, and
if the whole pool is ineligible every failure counter is reset to 0 and the
first proxy is returned. -/
def getProxy (rotationEnabled : Bool) (m : ProxyManager) :
    Option ProxyInfo × ProxyManager :=
  match m.proxies with
  | [] => (none, m)
  | p0 :: rest =>
    if !rotationEnabled then
      (some p0, m)
    else
      match getProxyLoop m.proxies m.currentIndex m.proxies.length with
      | some i =>
        (m.proxies.get? i, { m with currentIndex := (i + 1) % m.proxies.length })
      | none =>
        let cleared := (p0 :: rest).map (fun p => { p with failed_count := 0 })
        (cleared.head?, { m with proxies := cleared })

/-- `ProxyManager.mark_proxy_failed`, addressing the (aliased) proxy by its
position in the pool. -/
def markProxyFailed (m : ProxyManager) (i : Nat) : ProxyManager :=
  { m with
    proxies := m.proxies.modify (fun p => { p with failed_count := p.failed_count + 1 }) i }

/-- `ProxyManager.mark_proxy_success`, addressing the proxy by position. -/
def markProxySuccess (m : ProxyManager) (i : Nat) : ProxyManager :=
  { m with
    proxies := m.proxies.modify (fun p => { p with failed_count := p.failed_count - 1 }) i }

/-! ## User-agent rotation (`stealth_config.py`, `UserAgentRotator`) -/

/-- The `available` pool of one `UserAgentRotator.get_user_agent` call:
`agents` is the pool picked by the rotator's `browser_type` (one of the
fixed lists, or their concatenation for `"random"`); `last` is the
`_last_ua` attribute; everything but the previous agent is available. -/
def availList (agents : List String) : Option String → List String
  | none => agents
  | some l => agents.filter (fun ua => ua ≠ l)

/-- The choice itself: `random.choice(available)` resolved by `pick`, then
`self._last_ua = choice`. -/
def getUserAgent (agents : List String) (last : Option String) (pick : Nat) :
    Option String × Option String :=
  let available := availList agents last
  match available.get? (pick % available.length) with
  | none => (none, last)
  | some ua => (some ua, some ua)

/-- A whole call sequence: thread `_last_ua` through successive calls, one
`pick` per call. -/
def uaTrace (agents : List String) : List Nat → Option String → List (Option String)
  | [], _ => []
  | pick :: picks, last =>
    let step := getUserAgent agents last pick
    step.1 :: uaTrace agents picks step.2

/-! ## Result extraction (`google_maps_scraper_agent.py`,
`GoogleMapsScraper._extract_results_from_page`)

The in-page JavaScript walks the DOM of one `[role="article"]` node; the
DOM reads and regex matches are abstracted into an `Item` observation
record, while the record-building glue (defaulting, guards, dedup) is
embedded faithfully. -/

/-- Observations the extraction script makes on one listing node:
`linkHref` is the `href` of the first `<a>` (`none` when there is no link
element), `ariaLabel` the `aria-label` attribute (`""` when absent), and the
remaining fields the results of the line/regex matches, `none` when the
corresponding pattern did not match. -/
structure Item where
  linkHref : Option String := none
  ariaLabel : String := ""
  rating : Option String := none
  reviews : Option String := none
  price_level : Option String := none
  category : Option String := none
  address : Option String := none
  website : Option String := none
  phone : Option String := none
deriving DecidableEq, Repr

/-- A raw result dictionary pushed by the extraction script.  `url` and
`name` are always present keys (possibly `""`); the other keys are present
only when observed. -/
structure RawResult where
  url : String := ""
  name : String := ""
  rating : Option String := none
  reviews : Option String := none
  price_level : Option String := none
  category : Option String := none
  address : Option String := none
  website : Option String := none
  phone : Option String := none
  email : Option String := none
deriving DecidableEq, Repr

/-- The per-item body of the extraction script: build the record
(`result.url = linkEl ? linkEl.href : ''`, `result.name = aria-label || ''`)
and push it only when the name is non-empty. -/
def extractItem (it : Item) : Option RawResult :=
  let r : RawResult :=
    { url := it.linkHref.getD ""
      name := it.ariaLabel
      rating := it.rating
      reviews := it.reviews
      price_level := it.price_level
      category := it.category
      address := it.address
      website := it.website
      phone := it.phone }
  if r.name ≠ "" then some r else none

/-- Python `str.startswith(pre)`, character by character. -/
def pyStartsWith (s pre : String) : Bool :=
  pre.data.isPrefixOf s.data

/-- Python `str.strip()`, character by character. -/
def stripChars (s : String) : String :=
  String.mk (((s.data.dropWhile Char.isWhitespace).reverse.dropWhile
    Char.isWhitespace).reverse)

/-- The Python-side name dedup of `_extract_results_from_page`: keep a
result when its stripped name is non-empty and unseen. -/
def dedupByName (seen : List String) : List RawResult → List RawResult
  | [] => []
  | r :: rs =>
    let nm := stripChars r.name
    if nm ≠ "" ∧ nm ∉ seen then
      r :: dedupByName (nm :: seen) rs
    else
      dedupByName seen rs

/-- `_extract_results_from_page` over the items currently in the feed. -/
def extractResults (items : List Item) : List RawResult :=
  dedupByName [] (items.filterMap extractItem)

/-! ## Result processing (`process_results_node`) -/

/-- A finalized listing produced by `process_results_node`, possibly
carrying the extra `website_*` keys added by `enrich_websites_node`. -/
structure Listing where
  rank : Nat
  name : String
  rating : String
  reviews : String
  category : String
  price_level : String
  address : String
  phone : String
  website : String
  email : String
  url : String
  website_title : Option String := none
  website_description : Option String := none
  website_summary : Option String := none
  website_emails : Option (List String) := none
deriving DecidableEq, Repr

/-- The dictionary built for one raw result in `process_results_node`:
`result.get(key, "N/A")` — `url` and `name` keys always exist on a raw
result, the optional keys default to `"N/A"` when absent. -/
def processResult (i : Nat) (r : RawResult) : Listing :=
  { rank := i
    name := r.name
    rating := r.rating.getD "N/A"
    reviews := r.reviews.getD "N/A"
    category := r.category.getD "N/A"
    price_level := r.price_level.getD "N/A"
    address := r.address.getD "N/A"
    phone := r.phone.getD "N/A"
    website := r.website.getD "N/A"
    email := r.email.getD "N/A"
    url := r.url }

/-- The `for i, result in enumerate(raw_results, 1)` loop of
`process_results_node`. -/
def processList (i : Nat) : List RawResult → List Listing
  | [] => []
  | r :: rs => processResult i r :: processList (i + 1) rs

/-! ## Website enrichment (`scrape_website_info` / `enrich_websites_node`) -/

/-- Order-preserving de-duplication keeping first occurrences — Python's
`list(dict.fromkeys(xs))`. -/
def dedupFirstAux (seen : List String) : List String → List String
  | [] => []
  | x :: xs =>
    if x ∈ seen then dedupFirstAux seen xs
    else x :: dedupFirstAux (x :: seen) xs

/-- `list(dict.fromkeys(xs))`. -/
def dedupFirst (xs : List String) : List String :=
  dedupFirstAux [] xs

/-- The email finalization of `scrape_website_info`:
`list(dict.fromkeys(emails))[:10]`. -/
def finalizeEmails (emails : List String) : List String :=
  (dedupFirst emails).take 10

/-- The phone finalization of `scrape_website_info`:
`list(dict.fromkeys(phoneNumbers))[:5]`. -/
def finalizePhones (phones : List String) : List String :=
  (dedupFirst phones).take 5

/-- The dictionary returned by a successful `scrape_website_info` run.
`emails` and `phoneNumbers` have been finalized (deduped and capped). -/
structure WebsiteInfo where
  title : String := ""
  metaDescription : String := ""
  bodyText : String := ""
  emails : List String := []
  phoneNumbers : List String := []
deriving DecidableEq, Repr

/-- The text/email/phone material `scrape_website_info` accumulates before
finalization (homepage metadata plus the extended email/phone lists). -/
structure WebsiteRaw where
  title : String := ""
  metaDescription : String := ""
  bodyText : String := ""
  emails : List String := []
  phoneNumbers : List String := []
deriving DecidableEq, Repr

/-- The tail of `scrape_website_info`: dedup and cap the collected emails
and phone numbers. -/
def finalizeWebsiteInfo (w : WebsiteRaw) : WebsiteInfo :=
  { title := w.title
    metaDescription := w.metaDescription
    bodyText := w.bodyText
    emails := finalizeEmails w.emails
    phoneNumbers := finalizePhones w.phoneNumbers }

/-- `if website_info.get("title"): enriched_result["website_title"] = ...` -/
def applyTitle (w : WebsiteInfo) (r : Listing) : Listing :=
  if w.title ≠ "" then { r with website_title := some w.title } else r

/-- `if website_info.get("metaDescription"): ... ["website_description"]` -/
def applyDescription (w : WebsiteInfo) (r : Listing) : Listing :=
  if w.metaDescription ≠ "" then { r with website_description := some w.metaDescription }
  else r

/-- `if website_info.get("bodyText"): ... ["website_summary"] = bodyText[:500]` -/
def applySummary (w : WebsiteInfo) (r : Listing) : Listing :=
  if w.bodyText ≠ "" then { r with website_summary := some (w.bodyText.take 500) }
  else r

/-- The email block of `enrich_websites_node`: when the website produced
emails, backfill `email` if still sentinel/falsy and store the whole list
under `website_emails`. -/
def applyEmails (w : WebsiteInfo) (r : Listing) : Listing :=
  if w.emails ≠ [] then
    { (if r.email = "N/A" ∨ r.email = "" then { r with email := w.emails.headI } else r) with
      website_emails := some w.emails }
  else r

/-- The phone block of `enrich_websites_node`. -/
def applyPhone (w : WebsiteInfo) (r : Listing) : Listing :=
  if w.phoneNumbers ≠ [] ∧ (r.phone = "N/A" ∨ r.phone = "") then
    { r with phone := w.phoneNumbers.headI }
  else r

/-- `enrich_websites_node` body for one listing, given the `WebsiteInfo`
the website oracle returns for its URL (a scrape failure is the all-empty
info: every update is then a no-op, matching the `except` branch that
appends the listing unchanged). -/
def enrichOne (oracle : String → WebsiteInfo) (r : Listing) : Listing :=
  if r.website = "" ∨ r.website = "N/A" ∨ ¬ pyStartsWith r.website "http" then r
  else
    let w := oracle r.website
    applyPhone w (applyEmails w (applySummary w (applyDescription w (applyTitle w r))))

/-! ## Detail-panel enrichment (`GoogleMapsScraper._enrich_business_details`) -/

/-- The ways one `_enrich_business_details` call can unfold, observed from
the page: each handled failure mode, or a successfully opened detail panel
with the phone/email the in-page script found there. -/
inductive DetailOutcome where
  | noName
  | pageClosed
  | feedMissing
  | linkMissing
  | clickErrorOpen
  | panelMissing
  | pageClosedAfterClick
  | panel (phone : Option String) (email : Option String)
deriving DecidableEq, Repr

/-- Python truthiness of an optional string field. -/
def optTruthy : Option String → Bool
  | none => false
  | some s => s ≠ ""

/-- `_enrich_business_details`: on every handled failure the business record
is returned unmodified; on a panel read, `phone` is backfilled only when the
record has no (truthy) phone, and `email` is set whenever the panel produced
one. -/
def enrichDetails (b : RawResult) (o : DetailOutcome) : RawResult :=
  match o with
  | DetailOutcome.panel ph em =>
    let b1 := if optTruthy ph ∧ ¬ optTruthy b.phone then { b with phone := ph } else b
    if optTruthy em then { b1 with email := em } else b1
  | _ => b

/-! ## Method fallback (`GoogleMapsScraper.scrape_search_results`) -/

/-- Crawl-level errors a scraping method can raise. -/
inductive ScrapeErr where
  | detection (msg : String)
  | captcha (t : CaptchaType)
  | other (msg : String)
  | allMethodsFailed
deriving DecidableEq, Repr

/-- The method-fallback loop of `scrape_search_results`: each configured
method is an outcome (`Except.ok` its returned list, `Except.error` the
exception it raised); a method's non-empty result is returned, an empty
result falls through to the next method, and when everything is exhausted
the last stored error (or `AllMethodsFailedException`) is raised. -/
def scrapeSearch (lastErr : Option ScrapeErr) :
    List (Except ScrapeErr (List RawResult)) → Except ScrapeErr (List RawResult)
  | [] =>
    match lastErr with
    | some e => Except.error e
    | none => Except.error ScrapeErr.allMethodsFailed
  | m :: ms =>
    match m with
    | Except.ok results =>
      if results ≠ [] then Except.ok results else scrapeSearch lastErr ms
    | Except.error e => scrapeSearch (some e) ms

/-! ## LangGraph workflow (`agent_node`, `should_continue`,
`GoogleMapsScraperAgent.process`)

The graph repeatedly applies `agent_node` until `should_continue` says
`"end"`.  The two external effects — the scrape itself and the per-website
enrichment — are oracle parameters of the step function. -/

/-- `GoogleMapsScraperState` (the `messages` channel is irrelevant to the
claims and omitted). -/
structure WState where
  status : String
  rawResults : Option (List RawResult)
  processedResults : Option (List Listing)
  totalFound : Nat
  enrich : Bool
  error : Option String
deriving Repr

/-- The initial state built by `GoogleMapsScraperAgent.process`. -/
def initState (enrich : Bool) : WState :=
  { status := "initialized"
    rawResults := none
    processedResults := none
    totalFound := 0
    enrich := enrich
    error := none }

/-- `scrape_google_maps_node`, with the `scrape_search_results` outcome as a
parameter (`Except.error` is the node's `except` branch). -/
def scrapeNode (res : Except ScrapeErr (List RawResult)) (s : WState) : WState :=
  match res with
  | Except.error e =>
    { s with status := "error", error := some (reprStr e) }
  | Except.ok results =>
    if results = [] then
      { s with
        status := "completed"
        rawResults := some []
        totalFound := 0
        error := some "No results found" }
    else
      { s with
        rawResults := some results
        totalFound := results.length
        status := "scraped" }

/-- `process_results_node` (its body is pure; the guarding `except` branch
has no behavior in the embedding). -/
def processNode (s : WState) : WState :=
  match s.rawResults with
  | none => { s with status := "completed", processedResults := some [] }
  | some [] => { s with status := "completed", processedResults := some [] }
  | some raw =>
    { s with
      processedResults := some (processList 1 raw)
      status := "processed" }

/-- `enrich_websites_node`, with the website scraping as an oracle. -/
def enrichNode (oracle : String → WebsiteInfo) (s : WState) : WState :=
  match s.processedResults with
  | none => { s with status := "completed" }
  | some [] => { s with status := "completed" }
  | some rs =>
    { s with
      processedResults := some (rs.map (enrichOne oracle))
      status := "enriched" }

/-- `agent_node`: dispatch on the current status. -/
def agentStep (res : Except ScrapeErr (List RawResult))
    (oracle : String → WebsiteInfo) (s : WState) : WState :=
  if s.status = "initialized" then
    scrapeNode res s
  else if s.status = "scraped" then
    processNode s
  else if s.status = "processed" then
    if s.enrich then enrichNode oracle s else { s with status := "completed" }
  else if s.status = "enriched" then
    { s with status := "completed" }
  else
    s

/-- `should_continue`. -/
def shouldContinue (s : WState) : String :=
  if s.status = "completed" then "end"
  else if s.status = "error" then "end"
  else "continue"

/-- `k` rounds of the LangGraph loop. -/
def runW (res : Except ScrapeErr (List RawResult))
    (oracle : String → WebsiteInfo) (enrich : Bool) : Nat → WState
  | 0 => initState enrich
  | k + 1 => agentStep res oracle (runW res oracle enrich k)

/-- What `GoogleMapsScraperAgent.process` hands back to the transport layer
when the final state is not an error: `total_found`, the
`final_state.get("processed_results", [])` value (the key is always
present, so a `None` value passes through), and the processing status. -/
structure ProcessOutput where
  totalFound : Nat
  results : Option (List Listing)
  processingStatus : String
deriving Repr

/-- The non-error tail of `GoogleMapsScraperAgent.process`. -/
def processOutput (s : WState) : ProcessOutput :=
  { totalFound := s.totalFound
    results := s.processedResults
    processingStatus := s.status }

/-! ## Method-fallback and reachable-state helper definitions -/

/-- The first non-empty successful result among the configured methods. -/
def firstHit : List (Except ScrapeErr (List RawResult)) → Option (List RawResult)
  | [] => none
  | Except.ok r :: ms => if r ≠ [] then some r else firstHit ms
  | Except.error _ :: ms => firstHit ms

/-- The error stored in `last_error` after running every method, starting
from `le`. -/
def lastErrAux (le : Option ScrapeErr) :
    List (Except ScrapeErr (List RawResult)) → Option ScrapeErr
  | [] => le
  | Except.ok _ :: ms => lastErrAux le ms
  | Except.error e :: ms => lastErrAux (some e) ms

/-! ## Reachable workflow states -/

/-- The listings carried by a completed run that scraped `r`. -/
def finalListings (oracle : String → WebsiteInfo) (enrich : Bool)
    (r : List RawResult) : List Listing :=
  if enrich then (processList 1 r).map (enrichOne oracle) else processList 1 r

/-- State after a successful scrape of `r`. -/
def stScraped (enrich : Bool) (r : List RawResult) : WState :=
  { status := "scraped", rawResults := some r, processedResults := none
    totalFound := r.length, enrich := enrich, error := none }

/-- State after processing. -/
def stProcessed (enrich : Bool) (r : List RawResult) : WState :=
  { status := "processed", rawResults := some r
    processedResults := some (processList 1 r)
    totalFound := r.length, enrich := enrich, error := none }

/-- State after website enrichment. -/
def stEnriched (oracle : String → WebsiteInfo) (r : List RawResult) : WState :=
  { status := "enriched", rawResults := some r
    processedResults := some ((processList 1 r).map (enrichOne oracle))
    totalFound := r.length, enrich := true, error := none }

/-- Terminal completed state. -/
def stCompleted (oracle : String → WebsiteInfo) (enrich : Bool)
    (r : List RawResult) : WState :=
  { status := "completed", rawResults := some r
    processedResults := some (finalListings oracle enrich r)
    totalFound := r.length, enrich := enrich, error := none }

/-- Terminal error state (scrape raised). -/
def stError (enrich : Bool) (e : ScrapeErr) : WState :=
  { status := "error", rawResults := none, processedResults := none
    totalFound := 0, enrich := enrich, error := some (reprStr e) }

/-- Characterization of every state the workflow loop can reach, given that
`scrape_search_results` never returns an empty list. -/
def ReachInv (res : Except ScrapeErr (List RawResult)) (oracle : String → WebsiteInfo)
    (enrich : Bool) (s : WState) : Prop :=
  s = initState enrich ∨
  (∃ r, res = Except.ok r ∧ r ≠ [] ∧ s = stScraped enrich r) ∨
  (∃ r, res = Except.ok r ∧ r ≠ [] ∧ s = stProcessed enrich r) ∨
  (∃ r, res = Except.ok r ∧ r ≠ [] ∧ enrich = true ∧ s = stEnriched oracle r) ∨
  (∃ r, res = Except.ok r ∧ r ≠ [] ∧ s = stCompleted oracle enrich r) ∨
  (∃ e, res = Except.error e ∧ s = stError enrich e)


/-! ## Lemmas about order-preserving dedup -/

theorem mem_dedupFirstAux {x : String} :
    ∀ (seen xs : List String), x ∈ dedupFirstAux seen xs ↔ x ∈ xs ∧ x ∉ seen := by
  intro seen xs
  induction xs generalizing seen with
  | nil => simp [dedupFirstAux]
  | cons y ys ih =>
    by_cases hy : y ∈ seen
    · simp only [dedupFirstAux, if_pos hy, ih, List.mem_cons]
      constructor
      · rintro ⟨hx, hns⟩
        exact ⟨Or.inr hx, hns⟩
      · rintro ⟨hx | hx, hns⟩
        · exact absurd (hx ▸ hy) hns
        · exact ⟨hx, hns⟩
    · simp only [dedupFirstAux, if_neg hy, List.mem_cons, ih]
      constructor
      · rintro (rfl | ⟨hx, hns⟩)
        · exact ⟨Or.inl rfl, hy⟩
        · exact ⟨Or.inr hx, fun h => hns (Or.inr h)⟩
      · rintro ⟨rfl | hx, hns⟩
        · exact Or.inl rfl
        · by_cases hxy : x = y
          · exact Or.inl hxy
          · exact Or.inr ⟨hx, fun hmem => hmem.elim hxy hns⟩

theorem nodup_dedupFirstAux : ∀ (seen xs : List String), (dedupFirstAux seen xs).Nodup := by
  intro seen xs
  induction xs generalizing seen with
  | nil => simp [dedupFirstAux]
  | cons y ys ih =>
    by_cases hy : y ∈ seen
    · simpa [dedupFirstAux, if_pos hy] using ih seen
    · simp only [dedupFirstAux, if_neg hy, List.nodup_cons]
      refine ⟨fun hmem => ?_, ih (y :: seen)⟩
      exact (mem_dedupFirstAux (y :: seen) ys).mp hmem |>.2 (List.mem_cons_self y seen)

theorem sublist_dedupFirstAux :
    ∀ (seen xs : List String), List.Sublist (dedupFirstAux seen xs) xs := by
  intro seen xs
  induction xs generalizing seen with
  | nil => simp [dedupFirstAux]
  | cons y ys ih =>
    by_cases hy : y ∈ seen
    · simpa [dedupFirstAux, if_pos hy] using (ih seen).cons y
    · simpa [dedupFirstAux, if_neg hy] using (ih (y :: seen)).cons₂ y

theorem dedupFirstAux_eq_self {xs : List String} (hnd : xs.Nodup) :
    ∀ seen, (∀ x ∈ xs, x ∉ seen) → dedupFirstAux seen xs = xs := by
  induction xs with
  | nil => intro seen _; rfl
  | cons y ys ih =>
    intro seen hdisj
    have hy : y ∉ seen := hdisj y (List.mem_cons_self y ys)
    have hnd' : ys.Nodup := (List.nodup_cons.mp hnd).2
    have hyys : y ∉ ys := (List.nodup_cons.mp hnd).1
    simp only [dedupFirstAux, if_neg hy]
    congr 1
    exact ih hnd' (y :: seen) (fun x hx => by
      simp only [List.mem_cons]
      rintro (rfl | hmem)
      · exact hyys hx
      · exact hdisj x (List.mem_cons_of_mem _ hx) hmem)

theorem dedupFirst_nodup (xs : List String) : (dedupFirst xs).Nodup :=
  nodup_dedupFirstAux [] xs

theorem dedupFirst_sublist (xs : List String) : List.Sublist (dedupFirst xs) xs :=
  sublist_dedupFirstAux [] xs

theorem dedupFirst_of_nodup {xs : List String} (hnd : xs.Nodup) : dedupFirst xs = xs :=
  dedupFirstAux_eq_self hnd [] (by simp)

theorem finalizeEmails_nodup (xs : List String) : (finalizeEmails xs).Nodup :=
  ((List.take_sublist 10 (dedupFirst xs)).nodup (dedupFirst_nodup xs))

theorem finalizeEmails_length (xs : List String) : (finalizeEmails xs).length ≤ 10 := by
  simp [finalizeEmails]

theorem finalizeEmails_sublist (xs : List String) : List.Sublist (finalizeEmails xs) xs :=
  (List.take_sublist 10 (dedupFirst xs)).trans (dedupFirst_sublist xs)

theorem finalizeEmails_idem (xs : List String) :
    finalizeEmails (finalizeEmails xs) = finalizeEmails xs := by
  have h : (List.take 10 (dedupFirst xs)).Nodup :=
    (List.take_sublist 10 (dedupFirst xs)).nodup (dedupFirst_nodup xs)
  unfold finalizeEmails
  rw [dedupFirst_of_nodup h, List.take_take]
  simp

theorem finalizePhones_nodup (xs : List String) : (finalizePhones xs).Nodup :=
  ((List.take_sublist 5 (dedupFirst xs)).nodup (dedupFirst_nodup xs))

theorem finalizePhones_length (xs : List String) : (finalizePhones xs).length ≤ 5 := by
  simp [finalizePhones]

theorem finalizePhones_idem (xs : List String) :
    finalizePhones (finalizePhones xs) = finalizePhones xs := by
  have h : (List.take 5 (dedupFirst xs)).Nodup :=
    (List.take_sublist 5 (dedupFirst xs)).nodup (dedupFirst_nodup xs)
  unfold finalizePhones
  rw [dedupFirst_of_nodup h, List.take_take]
  simp

/-! ## Lemmas about the per-listing enrichment -/

theorem applyTitle_rank (w : WebsiteInfo) (r : Listing) : (applyTitle w r).rank = r.rank := by
  unfold applyTitle; split <;> rfl

theorem applyDescription_rank (w : WebsiteInfo) (r : Listing) :
    (applyDescription w r).rank = r.rank := by
  unfold applyDescription; split <;> rfl

theorem applySummary_rank (w : WebsiteInfo) (r : Listing) :
    (applySummary w r).rank = r.rank := by
  unfold applySummary; split <;> rfl

theorem applyEmails_rank (w : WebsiteInfo) (r : Listing) :
    (applyEmails w r).rank = r.rank := by
  unfold applyEmails
  split
  · split <;> rfl
  · rfl

theorem applyPhone_rank (w : WebsiteInfo) (r : Listing) : (applyPhone w r).rank = r.rank := by
  unfold applyPhone; split <;> rfl

theorem enrichOne_rank (oracle : String → WebsiteInfo) (r : Listing) :
    (enrichOne oracle r).rank = r.rank := by
  unfold enrichOne
  split
  · rfl
  · rw [applyPhone_rank, applyEmails_rank, applySummary_rank, applyDescription_rank,
      applyTitle_rank]

theorem applyTitle_website (w : WebsiteInfo) (r : Listing) :
    (applyTitle w r).website = r.website := by
  unfold applyTitle; split <;> rfl

theorem applyDescription_website (w : WebsiteInfo) (r : Listing) :
    (applyDescription w r).website = r.website := by
  unfold applyDescription; split <;> rfl

theorem applySummary_website (w : WebsiteInfo) (r : Listing) :
    (applySummary w r).website = r.website := by
  unfold applySummary; split <;> rfl

theorem applyEmails_website (w : WebsiteInfo) (r : Listing) :
    (applyEmails w r).website = r.website := by
  unfold applyEmails
  split
  · split <;> rfl
  · rfl

theorem applyPhone_website (w : WebsiteInfo) (r : Listing) :
    (applyPhone w r).website = r.website := by
  unfold applyPhone; split <;> rfl

theorem enrichOne_website (oracle : String → WebsiteInfo) (r : Listing) :
    (enrichOne oracle r).website = r.website := by
  unfold enrichOne
  split
  · rfl
  · rw [applyPhone_website, applyEmails_website, applySummary_website,
      applyDescription_website, applyTitle_website]

theorem applyTitle_website_emails (w : WebsiteInfo) (r : Listing) :
    (applyTitle w r).website_emails = r.website_emails := by
  unfold applyTitle; split <;> rfl

theorem applyDescription_website_emails (w : WebsiteInfo) (r : Listing) :
    (applyDescription w r).website_emails = r.website_emails := by
  unfold applyDescription; split <;> rfl

theorem applySummary_website_emails (w : WebsiteInfo) (r : Listing) :
    (applySummary w r).website_emails = r.website_emails := by
  unfold applySummary; split <;> rfl

theorem applyEmails_website_emails (w : WebsiteInfo) (r : Listing) :
    (applyEmails w r).website_emails =
      if w.emails ≠ [] then some w.emails else r.website_emails := by
  unfold applyEmails
  split
  · split <;> simp_all
  · simp_all

theorem applyPhone_website_emails (w : WebsiteInfo) (r : Listing) :
    (applyPhone w r).website_emails = r.website_emails := by
  unfold applyPhone; split <;> rfl

/-- What `enrich_websites_node` leaves in `website_emails`. -/
theorem enrichOne_website_emails (oracle : String → WebsiteInfo) (r : Listing) :
    (enrichOne oracle r).website_emails =
      if r.website = "" ∨ r.website = "N/A" ∨ ¬ pyStartsWith r.website "http" then
        r.website_emails
      else if (oracle r.website).emails ≠ [] then some (oracle r.website).emails
      else r.website_emails := by
  unfold enrichOne
  split
  · simp_all
  · rw [applyPhone_website_emails, applyEmails_website_emails,
      applySummary_website_emails, applyDescription_website_emails,
      applyTitle_website_emails]


/-- Re-enriching with the same oracle leaves `website_emails` unchanged. -/
theorem enrichOne_twice_website_emails (oracle : String → WebsiteInfo) (r : Listing) :
    (enrichOne oracle (enrichOne oracle r)).website_emails =
      (enrichOne oracle r).website_emails := by
  rw [enrichOne_website_emails oracle (enrichOne oracle r), enrichOne_website oracle r]
  by_cases hskip : r.website = "" ∨ r.website = "N/A" ∨ ¬ pyStartsWith r.website "http"
  · rw [if_pos hskip, enrichOne_website_emails, if_pos hskip]
  · rw [if_neg hskip, enrichOne_website_emails, if_neg hskip]
    by_cases hem : (oracle r.website).emails ≠ [] <;> simp [hem]

/-! ## Lemmas about result processing -/

theorem processList_length (raw : List RawResult) :
    ∀ i, (processList i raw).length = raw.length := by
  induction raw with
  | nil => intro i; rfl
  | cons r rs ih => intro i; simp [processList, ih]

theorem processList_ne_nil {raw : List RawResult} (h : raw ≠ []) (i : Nat) :
    processList i raw ≠ [] := by
  cases raw with
  | nil => exact absurd rfl h
  | cons r rs => simp [processList]

theorem processList_rank (raw : List RawResult) :
    ∀ i j (h : j < (processList i raw).length),
      ((processList i raw).get ⟨j, h⟩).rank = i + j := by
  induction raw with
  | nil => intro i j h; simp [processList] at h
  | cons r rs ih =>
    intro i j h
    cases j with
    | zero => rfl
    | succ j' =>
      have h' : j' < (processList (i + 1) rs).length := by
        simpa [processList] using Nat.lt_of_succ_lt_succ h
      have hr := ih (i + 1) j' h'
      simp only [processList, List.get_cons_succ]
      exact hr.trans (by omega)

theorem processList_rank_fin (raw : List RawResult) (i : Nat)
    (n : Fin (processList i raw).length) :
    ((processList i raw).get n).rank = i + n.1 := by
  obtain ⟨j, hj⟩ := n
  exact processList_rank raw i j hj

/-! ## Lemmas about the 2Captcha poll loop -/

theorem pollLoop_le (oracle : Nat → PollResp) :
    ∀ fuel i, (pollLoop oracle fuel i).2 ≤ fuel := by
  intro fuel
  induction fuel with
  | zero => intro i; simp [pollLoop]
  | succ f ih =>
    intro i
    simp only [pollLoop]
    split
    · simp
    · split
      · simp
      · simpa using Nat.succ_le_succ (ih (i + 1))

/-- A run of `n` not-ready polls followed by a solved response yields the
token after exactly `n + 1` polls. -/
theorem pollLoop_solved (oracle : Nat → PollResp) (tok : String) :
    ∀ n fuel i, n < fuel →
      (∀ k, k < n → oracle (i + k) = notReadyResp) →
      oracle (i + n) = solvedResp tok →
      pollLoop oracle fuel i = (some tok, n + 1) := by
  intro n
  induction n with
  | zero =>
    intro fuel i hn _ hsolved
    obtain ⟨f, rfl⟩ := Nat.exists_eq_succ_of_ne_zero (Nat.pos_iff_ne_zero.mp hn)
    simp only [pollLoop]
    rw [show i + 0 = i from rfl] at hsolved
    rw [hsolved]
    simp [solvedResp]
  | succ n ih =>
    intro fuel i hn hnr hsolved
    obtain ⟨f, rfl⟩ := Nat.exists_eq_succ_of_ne_zero (Nat.pos_iff_ne_zero.mp (Nat.lt_of_le_of_lt (Nat.zero_le _) hn))
    have h0 : oracle i = notReadyResp := by
      have := hnr 0 (Nat.succ_pos n)
      simpa using this
    simp only [pollLoop, h0]
    rw [show notReadyResp.status = none from rfl]
    simp only [notReadyResp, reduceCtorEq, if_false]
    have hrec : pollLoop oracle f (i + 1) = (some tok, n + 1) := by
      refine ih f (i + 1) (Nat.lt_of_succ_lt_succ hn) ?_ ?_
      · intro k hk
        have := hnr (k + 1) (Nat.succ_lt_succ hk)
        rwa [show i + (k + 1) = i + 1 + k by omega] at this
      · rwa [show i + (n + 1) = i + 1 + n by omega] at hsolved
    simp [hrec]

/-- `fuel` consecutive not-ready polls exhaust the loop: failure after
exactly `fuel` polls. -/
theorem pollLoop_exhausted (oracle : Nat → PollResp) :
    ∀ fuel i, (∀ k, k < fuel → oracle (i + k) = notReadyResp) →
      pollLoop oracle fuel i = (none, fuel) := by
  intro fuel
  induction fuel with
  | zero => intro i _; rfl
  | succ f ih =>
    intro i hnr
    have h0 : oracle i = notReadyResp := by simpa using hnr 0 (Nat.succ_pos f)
    simp only [pollLoop, h0]
    have hrec : pollLoop oracle f (i + 1) = (none, f) := by
      refine ih (i + 1) fun k hk => ?_
      have := hnr (k + 1) (Nat.succ_lt_succ hk)
      rwa [show i + (k + 1) = i + 1 + k by omega] at this
    simp [notReadyResp, hrec]

/-- A poll response that is neither solved nor the not-ready sentinel is an
immediate terminal failure. -/
theorem pollLoop_badResponse (oracle : Nat → PollResp) :
    ∀ n fuel i, n < fuel →
      (∀ k, k < n → oracle (i + k) = notReadyResp) →
      (oracle (i + n)).status ≠ some 1 →
      (oracle (i + n)).request ≠ some "CAPCHA_NOT_READY" →
      pollLoop oracle fuel i = (none, n + 1) := by
  intro n
  induction n with
  | zero =>
    intro fuel i hn _ hst hreq
    obtain ⟨f, rfl⟩ := Nat.exists_eq_succ_of_ne_zero (Nat.pos_iff_ne_zero.mp hn)
    rw [show i + 0 = i from rfl] at hst hreq
    simp [pollLoop, hst, hreq]
  | succ n ih =>
    intro fuel i hn hnr hst hreq
    obtain ⟨f, rfl⟩ := Nat.exists_eq_succ_of_ne_zero (Nat.pos_iff_ne_zero.mp (Nat.lt_of_le_of_lt (Nat.zero_le _) hn))
    have h0 : oracle i = notReadyResp := by simpa using hnr 0 (Nat.succ_pos n)
    simp only [pollLoop, h0]
    have hrec : pollLoop oracle f (i + 1) = (none, n + 1) := by
      refine ih f (i + 1) (Nat.lt_of_succ_lt_succ hn) ?_ ?_ ?_
      · intro k hk
        have := hnr (k + 1) (Nat.succ_lt_succ hk)
        rwa [show i + (k + 1) = i + 1 + k by omega] at this
      · rwa [show i + (n + 1) = i + 1 + n by omega] at hst
      · rwa [show i + (n + 1) = i + 1 + n by omega] at hreq
    simp [notReadyResp, hrec]

/-! ## Lemmas about method fallback -/

theorem scrapeSearch_ok_ne_nil :
    ∀ (ms : List (Except ScrapeErr (List RawResult))) (le : Option ScrapeErr)
      (r : List RawResult), scrapeSearch le ms = Except.ok r → r ≠ [] := by
  intro ms
  induction ms with
  | nil =>
    intro le r h
    cases le <;> simp [scrapeSearch] at h
  | cons m ms ih =>
    intro le r h
    cases m with
    | ok res =>
      by_cases hres : res ≠ []
      · simp [scrapeSearch, hres] at h
        exact h ▸ hres
      · simp [scrapeSearch, hres] at h
        exact ih le r h
    | error e =>
      simp [scrapeSearch] at h
      exact ih (some e) r h

theorem scrapeSearch_ok_firstHit :
    ∀ (ms : List (Except ScrapeErr (List RawResult))) (le : Option ScrapeErr)
      (r : List RawResult), scrapeSearch le ms = Except.ok r → firstHit ms = some r := by
  intro ms
  induction ms with
  | nil =>
    intro le r h
    cases le <;> simp [scrapeSearch] at h
  | cons m ms ih =>
    intro le r h
    cases m with
    | ok res =>
      by_cases hres : res ≠ []
      · simp [scrapeSearch, hres] at h
        subst h
        simp [firstHit, hres]
      · simp [scrapeSearch, hres] at h
        simp only [firstHit, if_neg hres]
        exact ih le r h
    | error e =>
      simp [scrapeSearch] at h
      simp only [firstHit]
      exact ih (some e) r h

theorem scrapeSearch_error :
    ∀ (ms : List (Except ScrapeErr (List RawResult))) (le : Option ScrapeErr),
      firstHit ms = none →
      scrapeSearch le ms =
        Except.error ((lastErrAux le ms).getD ScrapeErr.allMethodsFailed) := by
  intro ms
  induction ms with
  | nil =>
    intro le _
    cases le <;> rfl
  | cons m ms ih =>
    intro le hfh
    cases m with
    | ok res =>
      by_cases hres : res ≠ []
      · simp [firstHit, hres] at hfh
      · simp only [firstHit, if_neg hres] at hfh
        simp only [scrapeSearch, if_neg hres, lastErrAux]
        exact ih le hfh
    | error e =>
      simp only [firstHit] at hfh
      simp only [scrapeSearch, lastErrAux]
      exact ih (some e) hfh

/-! ## Lemmas about the proxy rotation scan -/

theorem getProxyLoop_some {ps : List ProxyInfo} :
    ∀ fuel idx j, getProxyLoop ps idx fuel = some j →
      ∃ p, ps.get? j = some p ∧ p.failed_count < 3 := by
  intro fuel
  induction fuel with
  | zero => intro idx j h; simp [getProxyLoop] at h
  | succ f ih =>
    intro idx j h
    rw [getProxyLoop] at h
    split at h
    · cases h
    · rename_i p hg
      by_cases hp : p.failed_count < 3
      · rw [if_pos hp] at h
        cases h
        exact ⟨p, hg, hp⟩
      · rw [if_neg hp] at h
        exact ih _ j h

theorem getProxyLoop_none_ineligible {ps : List ProxyInfo} :
    ∀ fuel idx, idx < ps.length → getProxyLoop ps idx fuel = none →
      ∀ k, k < fuel → ∀ p, ps.get? ((idx + k) % ps.length) = some p →
        ¬ p.failed_count < 3 := by
  intro fuel
  induction fuel with
  | zero => intro idx _ _ k hk; omega
  | succ f ih =>
    intro idx hidx h k hk p hp
    have hlen : 0 < ps.length := Nat.lt_of_le_of_lt (Nat.zero_le idx) hidx
    rw [getProxyLoop] at h
    split at h
    · rename_i hg
      have hge := List.get?_eq_none.mp hg
      omega
    · rename_i q hg
      by_cases hq : q.failed_count < 3
      · rw [if_pos hq] at h; cases h
      · rw [if_neg hq] at h
        cases k with
        | zero =>
          intro hlt
          rw [Nat.add_zero, Nat.mod_eq_of_lt hidx, hg] at hp
          cases hp
          exact hq hlt
        | succ k' =>
          have hidx' : (idx + 1) % ps.length < ps.length := Nat.mod_lt _ hlen
          have := ih ((idx + 1) % ps.length) hidx' h k' (Nat.lt_of_succ_lt_succ hk) p
          rw [Nat.mod_add_mod, show idx + 1 + k' = idx + (k' + 1) by omega] at this
          exact this hp

/-- If some proxy in the pool is still eligible, the full-length scan finds
an eligible proxy (no reset happens). -/
theorem getProxyLoop_finds {ps : List ProxyInfo} {idx : Nat} (hidx : idx < ps.length)
    {q : ProxyInfo} (hq : q ∈ ps) (hqc : q.failed_count < 3) :
    ∃ j p, getProxyLoop ps idx ps.length = some j ∧ ps.get? j = some p ∧
      p.failed_count < 3 := by
  cases hres : getProxyLoop ps idx ps.length with
  | some j =>
    obtain ⟨p, hp, hpc⟩ := getProxyLoop_some _ idx j hres
    exact ⟨j, p, rfl, hp, hpc⟩
  | none =>
    exfalso
    obtain ⟨⟨n, hn⟩, hget⟩ := List.get_of_mem hq
    have hlen : 0 < ps.length := Nat.lt_of_le_of_lt (Nat.zero_le idx) hidx
    have hk : (n + ps.length - idx) % ps.length < ps.length := Nat.mod_lt _ hlen
    have hcov := getProxyLoop_none_ineligible ps.length idx hidx hres
      ((n + ps.length - idx) % ps.length) hk q
    have hmod : (idx + (n + ps.length - idx) % ps.length) % ps.length = n := by
      rw [Nat.add_mod_mod]
      rw [show idx + (n + ps.length - idx) = n + ps.length by omega]
      rw [Nat.add_mod_right]
      exact Nat.mod_eq_of_lt hn
    apply hcov _ hqc
    rw [hmod, List.get?_eq_get hn, hget]

/-! ## Lemmas about user-agent rotation -/

theorem availList_ne_nil {agents : List String} {a b : String}
    (ha : a ∈ agents) (hb : b ∈ agents) (hab : a ≠ b) (last : Option String) :
    availList agents last ≠ [] := by
  cases last with
  | none =>
    intro h
    have hnil : agents = [] := h
    simp [hnil] at ha
  | some l =>
    intro hempty
    by_cases hal : a = l
    · have hbl : b ≠ l := fun hbl => hab (hal ▸ hbl ▸ rfl)
      have : b ∈ availList agents (some l) :=
        List.mem_filter.mpr ⟨hb, decide_eq_true hbl⟩
      rw [hempty] at this
      cases this
    · have : a ∈ availList agents (some l) :=
        List.mem_filter.mpr ⟨ha, decide_eq_true hal⟩
      rw [hempty] at this
      cases this

theorem mem_availList {agents : List String} {last : Option String} {ua : String}
    (h : ua ∈ availList agents last) :
    ua ∈ agents ∧ ∀ l, last = some l → ua ≠ l := by
  cases last with
  | none => exact ⟨h, by simp⟩
  | some l =>
    have h' := List.mem_filter.mp h
    exact ⟨h'.1, fun l' hl' => by cases hl'; exact of_decide_eq_true h'.2⟩

theorem getUserAgent_spec {agents : List String} {a b : String}
    (ha : a ∈ agents) (hb : b ∈ agents) (hab : a ≠ b) (last : Option String) (pick : Nat) :
    ∃ ua, (getUserAgent agents last pick).1 = some ua ∧
      (getUserAgent agents last pick).2 = some ua ∧ ua ∈ agents ∧
      ∀ l, last = some l → ua ≠ l := by
  have hne : availList agents last ≠ [] := availList_ne_nil ha hb hab last
  have hlen : 0 < (availList agents last).length := List.length_pos.mpr hne
  have hlt : pick % (availList agents last).length < (availList agents last).length :=
    Nat.mod_lt _ hlen
  have hget := List.get?_eq_get hlt
  have hmem :=
    mem_availList (List.get_mem (availList agents last) (pick % (availList agents last).length) hlt)
  refine ⟨(availList agents last).get ⟨_, hlt⟩, ?_, ?_, hmem.1, hmem.2⟩ <;>
    · simp only [getUserAgent]
      rw [hget]

theorem reachInv_init (res : Except ScrapeErr (List RawResult))
    (oracle : String → WebsiteInfo) (enrich : Bool) :
    ReachInv res oracle enrich (initState enrich) :=
  Or.inl rfl

theorem reachInv_step (res : Except ScrapeErr (List RawResult))
    (oracle : String → WebsiteInfo) (enrich : Bool)
    (hres : ∀ r, res = Except.ok r → r ≠ []) (s : WState)
    (hs : ReachInv res oracle enrich s) :
    ReachInv res oracle enrich (agentStep res oracle s) := by
  rcases hs with h | ⟨r, hr, hne, h⟩ | ⟨r, hr, hne, h⟩ | ⟨r, hr, hne, he, h⟩ |
    ⟨r, hr, hne, h⟩ | ⟨e, hr, h⟩
  · subst h
    cases res with
    | error e =>
      refine Or.inr (Or.inr (Or.inr (Or.inr (Or.inr ⟨e, rfl, ?_⟩))))
      rfl
    | ok r =>
      have hne : r ≠ [] := hres r rfl
      refine Or.inr (Or.inl ⟨r, rfl, hne, ?_⟩)
      simp only [agentStep, initState, scrapeNode, if_pos]
      rw [if_neg hne]
      rfl
  · subst h
    refine Or.inr (Or.inr (Or.inl ⟨r, hr, hne, ?_⟩))
    have : agentStep res oracle (stScraped enrich r) = processNode (stScraped enrich r) := by
      rfl
    rw [this]
    cases r with
    | nil => exact absurd rfl hne
    | cons x xs => rfl
  · subst h
    cases henr : enrich with
    | true =>
      refine Or.inr (Or.inr (Or.inr (Or.inl ⟨r, hr, hne, rfl, ?_⟩)))
      have hstep : agentStep res oracle (stProcessed true r) =
          enrichNode oracle (stProcessed true r) := by rfl
      rw [hstep]
      cases hpl : processList 1 r with
      | nil => exact absurd hpl (processList_ne_nil hne 1)
      | cons x xs =>
        simp only [enrichNode, stProcessed, hpl]
        rw [stEnriched, ← hpl]
    | false =>
      refine Or.inr (Or.inr (Or.inr (Or.inr (Or.inl ⟨r, hr, hne, ?_⟩))))
      have hstep : agentStep res oracle (stProcessed false r) =
          { stProcessed false r with status := "completed" } := by rfl
      rw [hstep]
      rw [stCompleted, finalListings]
      rfl
  · subst h
    subst he
    refine Or.inr (Or.inr (Or.inr (Or.inr (Or.inl ⟨r, hr, hne, ?_⟩))))
    have hstep : agentStep res oracle (stEnriched oracle r) =
        { stEnriched oracle r with status := "completed" } := by rfl
    rw [hstep]
    rw [stCompleted, finalListings]
    rfl
  · subst h
    refine Or.inr (Or.inr (Or.inr (Or.inr (Or.inl ⟨r, hr, hne, ?_⟩))))
    rfl
  · subst h
    refine Or.inr (Or.inr (Or.inr (Or.inr (Or.inr ⟨e, hr, ?_⟩))))
    rfl

theorem reachInv_runW (res : Except ScrapeErr (List RawResult))
    (oracle : String → WebsiteInfo) (enrich : Bool)
    (hres : ∀ r, res = Except.ok r → r ≠ []) :
    ∀ k, ReachInv res oracle enrich (runW res oracle enrich k) := by
  intro k
  induction k with
  | zero => exact reachInv_init res oracle enrich
  | succ k ih => exact reachInv_step res oracle enrich hres _ ih

theorem finalListings_length (oracle : String → WebsiteInfo) (enrich : Bool)
    (r : List RawResult) : (finalListings oracle enrich r).length = r.length := by
  unfold finalListings
  split
  · rw [List.length_map, processList_length]
  · rw [processList_length]

theorem finalListings_rank (oracle : String → WebsiteInfo) (enrich : Bool)
    (r : List RawResult) :
    ∀ j (h : j < (finalListings oracle enrich r).length),
      ((finalListings oracle enrich r).get ⟨j, h⟩).rank = j + 1 := by
  intro j h
  cases enrich with
  | true =>
    show ((List.map (enrichOne oracle) (processList 1 r)).get ⟨j, h⟩).rank = j + 1
    have hj : j < (processList 1 r).length := by
      have h' : j < (List.map (enrichOne oracle) (processList 1 r)).length := h
      simpa using h' 
    rw [List.get_eq_getElem]
    simp only [List.getElem_map]
    rw [enrichOne_rank]
    have hr := processList_rank r 1 j hj
    rw [List.get_eq_getElem] at hr
    exact hr.trans (by omega)
  | false =>
    show ((processList 1 r).get ⟨j, h⟩).rank = j + 1
    rw [processList_rank]
    omega

/-!
# Claims

One theorem per claim of the specification, each over the embedded
definitions above.
-/

/-- C1: for every run that finishes with a completed processing status, the
returned `total_found` equals the length of the returned results list, and
the `rank` fields of the results are exactly the contiguous sequence
`1..N` in harvest order (`process_results_node` assigns rank by
enumeration over `raw_results`, and enrichment neither adds, drops nor
reorders listings).  The hypothesis that a successful
`scrape_search_results` is non-empty is discharged by C9. -/
theorem c1_completed_totalFound_ranks (res : Except ScrapeErr (List RawResult))
    (oracle : String → WebsiteInfo) (enrich : Bool)
    (hres : ∀ r, res = Except.ok r → r ≠ []) (k : Nat)
    (hdone : (processOutput (runW res oracle enrich k)).processingStatus = "completed") :
    ∃ rs, (processOutput (runW res oracle enrich k)).results = some rs ∧
      (processOutput (runW res oracle enrich k)).totalFound = rs.length ∧
      ∀ j (h : j < rs.length), (rs.get ⟨j, h⟩).rank = j + 1 := by
  have hinv := reachInv_runW res oracle enrich hres k
  rcases hinv with h | ⟨r, _, _, h⟩ | ⟨r, _, _, h⟩ | ⟨r, _, _, _, h⟩ |
    ⟨r, hr, hne, h⟩ | ⟨e, _, h⟩
  · rw [h] at hdone
    exact absurd (show ("initialized" : String) = "completed" from hdone) (by decide)
  · rw [h] at hdone
    exact absurd (show ("scraped" : String) = "completed" from hdone) (by decide)
  · rw [h] at hdone
    exact absurd (show ("processed" : String) = "completed" from hdone) (by decide)
  · rw [h] at hdone
    exact absurd (show ("enriched" : String) = "completed" from hdone) (by decide)
  · refine ⟨finalListings oracle enrich r, ?_, ?_, ?_⟩
    · rw [h]; rfl
    · rw [h]
      show r.length = (finalListings oracle enrich r).length
      rw [finalListings_length]
    · exact fun j hj => finalListings_rank oracle enrich r j hj
  · rw [h] at hdone
    exact absurd (show ("error" : String) = "completed" from hdone) (by decide)

/-- Witness for C1: a concrete two-listing run with enrichment, driven to
the fixpoint. -/
theorem c1_witness :
    ∃ rs,
      (processOutput (runW (Except.ok [{ name := "A" }, { name := "B" }])
          (fun _ => {}) true 5)).results = some rs ∧
      (processOutput (runW (Except.ok [{ name := "A" }, { name := "B" }])
          (fun _ => {}) true 5)).totalFound = rs.length ∧
      ∀ j (h : j < rs.length), (rs.get ⟨j, h⟩).rank = j + 1 := by
  refine c1_completed_totalFound_ranks _ _ _ ?_ 5 ?_
  · intro r h
    injection h with h
    subst h
    decide
  · rfl

/-- C2: viewing `agent_node` plus `should_continue` as a step relation on
`WorkflowState.status`, every reachable state moves forward through
`initialized -> scraped -> processed -> (enriched ->) completed` or jumps
to `error`; `processed` steps directly to `completed` when enrichment is
not requested; and once the status is `completed` or `error` the step
function is the identity and `should_continue` ends the workflow. -/
theorem c2_status_machine (res : Except ScrapeErr (List RawResult))
    (oracle : String → WebsiteInfo) (enrich : Bool)
    (hres : ∀ r, res = Except.ok r → r ≠ []) (k : Nat) :
    (((runW res oracle enrich k).status = "completed" ∨
        (runW res oracle enrich k).status = "error") →
      agentStep res oracle (runW res oracle enrich k) = runW res oracle enrich k ∧
      shouldContinue (runW res oracle enrich k) = "end") ∧
    ((runW res oracle enrich k).status = "initialized" →
      (agentStep res oracle (runW res oracle enrich k)).status = "scraped" ∨
      (agentStep res oracle (runW res oracle enrich k)).status = "error") ∧
    ((runW res oracle enrich k).status = "scraped" →
      (agentStep res oracle (runW res oracle enrich k)).status = "processed") ∧
    ((runW res oracle enrich k).status = "processed" →
      (agentStep res oracle (runW res oracle enrich k)).status =
        (if (runW res oracle enrich k).enrich then "enriched" else "completed")) ∧
    ((runW res oracle enrich k).status = "enriched" →
      (agentStep res oracle (runW res oracle enrich k)).status = "completed") := by
  have hinv := reachInv_runW res oracle enrich hres k
  rcases hinv with h | ⟨r, hr, hne, h⟩ | ⟨r, hr, hne, h⟩ | ⟨r, hr, hne, he, h⟩ |
    ⟨r, hr, hne, h⟩ | ⟨e, hr, h⟩ <;> rw [h]
  · refine ⟨fun hc => ?_, fun _ => ?_, fun hc => ?_, fun hc => ?_, fun hc => ?_⟩
    · rcases hc with hc | hc
      · exact absurd (show ("initialized" : String) = "completed" from hc) (by decide)
      · exact absurd (show ("initialized" : String) = "error" from hc) (by decide)
    · cases res with
      | error e => exact Or.inr rfl
      | ok r =>
        refine Or.inl ?_
        show (scrapeNode (Except.ok r) (initState enrich)).status = "scraped"
        simp only [scrapeNode]
        rw [if_neg (hres r rfl)]
    · exact absurd (show ("initialized" : String) = "scraped" from hc) (by decide)
    · exact absurd (show ("initialized" : String) = "processed" from hc) (by decide)
    · exact absurd (show ("initialized" : String) = "enriched" from hc) (by decide)
  · refine ⟨fun hc => ?_, fun hc => ?_, fun _ => ?_, fun hc => ?_, fun hc => ?_⟩
    · rcases hc with hc | hc
      · exact absurd (show ("scraped" : String) = "completed" from hc) (by decide)
      · exact absurd (show ("scraped" : String) = "error" from hc) (by decide)
    · exact absurd (show ("scraped" : String) = "initialized" from hc) (by decide)
    · show (processNode (stScraped enrich r)).status = "processed"
      cases r with
      | nil => exact absurd rfl hne
      | cons x xs => rfl
    · exact absurd (show ("scraped" : String) = "processed" from hc) (by decide)
    · exact absurd (show ("scraped" : String) = "enriched" from hc) (by decide)
  · refine ⟨fun hc => ?_, fun hc => ?_, fun hc => ?_, fun _ => ?_, fun hc => ?_⟩
    · rcases hc with hc | hc
      · exact absurd (show ("processed" : String) = "completed" from hc) (by decide)
      · exact absurd (show ("processed" : String) = "error" from hc) (by decide)
    · exact absurd (show ("processed" : String) = "initialized" from hc) (by decide)
    · exact absurd (show ("processed" : String) = "scraped" from hc) (by decide)
    · show (agentStep res oracle (stProcessed enrich r)).status =
        (if enrich then "enriched" else "completed")
      cases enrich with
      | true =>
        have hstep : agentStep res oracle (stProcessed true r) =
            enrichNode oracle (stProcessed true r) := by rfl
        rw [hstep, if_pos rfl]
        cases hpl : processList 1 r with
        | nil => exact absurd hpl (processList_ne_nil hne 1)
        | cons x xs => simp only [enrichNode, stProcessed, hpl]
      | false => rfl
    · exact absurd (show ("processed" : String) = "enriched" from hc) (by decide)
  · refine ⟨fun hc => ?_, fun hc => ?_, fun hc => ?_, fun hc => ?_, fun _ => rfl⟩
    · rcases hc with hc | hc
      · exact absurd (show ("enriched" : String) = "completed" from hc) (by decide)
      · exact absurd (show ("enriched" : String) = "error" from hc) (by decide)
    · exact absurd (show ("enriched" : String) = "initialized" from hc) (by decide)
    · exact absurd (show ("enriched" : String) = "scraped" from hc) (by decide)
    · exact absurd (show ("enriched" : String) = "processed" from hc) (by decide)
  · refine ⟨fun _ => ⟨rfl, rfl⟩, fun hc => ?_, fun hc => ?_, fun hc => ?_, fun hc => ?_⟩
    · exact absurd (show ("completed" : String) = "initialized" from hc) (by decide)
    · exact absurd (show ("completed" : String) = "scraped" from hc) (by decide)
    · exact absurd (show ("completed" : String) = "processed" from hc) (by decide)
    · exact absurd (show ("completed" : String) = "enriched" from hc) (by decide)
  · refine ⟨fun _ => ⟨rfl, rfl⟩, fun hc => ?_, fun hc => ?_, fun hc => ?_, fun hc => ?_⟩
    · exact absurd (show ("error" : String) = "initialized" from hc) (by decide)
    · exact absurd (show ("error" : String) = "scraped" from hc) (by decide)
    · exact absurd (show ("error" : String) = "processed" from hc) (by decide)
    · exact absurd (show ("error" : String) = "enriched" from hc) (by decide)

/-- Witness for C2: the transition facts at a concrete one-listing run
observed after one step (a `"scraped"` state). -/
theorem c2_witness :
    (((runW (Except.ok [{ name := "A" }]) (fun _ => {}) false 1).status = "completed" ∨
        (runW (Except.ok [{ name := "A" }]) (fun _ => {}) false 1).status = "error") →
      agentStep (Except.ok [{ name := "A" }]) (fun _ => {})
          (runW (Except.ok [{ name := "A" }]) (fun _ => {}) false 1) =
        runW (Except.ok [{ name := "A" }]) (fun _ => {}) false 1 ∧
      shouldContinue (runW (Except.ok [{ name := "A" }]) (fun _ => {}) false 1) = "end") ∧
    ((runW (Except.ok [{ name := "A" }]) (fun _ => {}) false 1).status = "initialized" →
      (agentStep (Except.ok [{ name := "A" }]) (fun _ => {})
          (runW (Except.ok [{ name := "A" }]) (fun _ => {}) false 1)).status = "scraped" ∨
      (agentStep (Except.ok [{ name := "A" }]) (fun _ => {})
          (runW (Except.ok [{ name := "A" }]) (fun _ => {}) false 1)).status = "error") ∧
    ((runW (Except.ok [{ name := "A" }]) (fun _ => {}) false 1).status = "scraped" →
      (agentStep (Except.ok [{ name := "A" }]) (fun _ => {})
          (runW (Except.ok [{ name := "A" }]) (fun _ => {}) false 1)).status = "processed") ∧
    ((runW (Except.ok [{ name := "A" }]) (fun _ => {}) false 1).status = "processed" →
      (agentStep (Except.ok [{ name := "A" }]) (fun _ => {})
          (runW (Except.ok [{ name := "A" }]) (fun _ => {}) false 1)).status =
        (if (runW (Except.ok [{ name := "A" }]) (fun _ => {}) false 1).enrich then "enriched"
          else "completed")) ∧
    ((runW (Except.ok [{ name := "A" }]) (fun _ => {}) false 1).status = "enriched" →
      (agentStep (Except.ok [{ name := "A" }]) (fun _ => {})
          (runW (Except.ok [{ name := "A" }]) (fun _ => {}) false 1)).status = "completed") := by
  refine c2_status_machine _ _ _ ?_ 1
  intro r h
  injection h with h
  subst h
  decide

/-- C9: `scrape_search_results` never returns an empty list: every
execution either returns a non-empty listing list (the first configured
method that produced any result) or raises — the most recently stored
method error when some method raised, otherwise
`AllMethodsFailedException`. -/
theorem c9_scrape_search_no_empty_return :
    (∀ (ms : List (Except ScrapeErr (List RawResult))) (le : Option ScrapeErr)
        (r : List RawResult), scrapeSearch le ms = Except.ok r → r ≠ []) ∧
    (∀ (ms : List (Except ScrapeErr (List RawResult))) (le : Option ScrapeErr)
        (r : List RawResult), scrapeSearch le ms = Except.ok r → firstHit ms = some r) ∧
    (∀ ms : List (Except ScrapeErr (List RawResult)), firstHit ms = none →
      scrapeSearch none ms =
        Except.error ((lastErrAux none ms).getD ScrapeErr.allMethodsFailed)) :=
  ⟨scrapeSearch_ok_ne_nil, scrapeSearch_ok_firstHit, fun ms => scrapeSearch_error ms none⟩

/-- Witness for C9: a raising method followed by an empty-result method
yields the raised error; a non-empty method is returned as-is. -/
theorem c9_witness :
    scrapeSearch none [Except.error (ScrapeErr.other "net"), Except.ok []] =
      Except.error ((lastErrAux none
        [Except.error (ScrapeErr.other "net"), Except.ok []]).getD
          ScrapeErr.allMethodsFailed) ∧
    firstHit [Except.ok [({ name := "A" } : RawResult)]] =
      some [({ name := "A" } : RawResult)] :=
  ⟨c9_scrape_search_no_empty_return.2.2 _ rfl,
   c9_scrape_search_no_empty_return.2.1 [Except.ok [{ name := "A" }]] none _ rfl⟩

/-- C10: `_enrich_business_details` only ever adds to the business record:
`phone` is set only when the input has no (truthy) phone, `email` only when
the detail panel produced one, every other key is unchanged, and every
handled failure mode returns the input record unmodified. -/
theorem c10_detail_enrichment_frame (b : RawResult) (o : DetailOutcome) :
    (enrichDetails b o).url = b.url ∧
    (enrichDetails b o).name = b.name ∧
    (enrichDetails b o).rating = b.rating ∧
    (enrichDetails b o).reviews = b.reviews ∧
    (enrichDetails b o).price_level = b.price_level ∧
    (enrichDetails b o).category = b.category ∧
    (enrichDetails b o).address = b.address ∧
    (enrichDetails b o).website = b.website ∧
    (∀ ph em, o = DetailOutcome.panel ph em →
      (enrichDetails b o).phone =
        (if optTruthy ph ∧ ¬ optTruthy b.phone then ph else b.phone) ∧
      (enrichDetails b o).email = (if optTruthy em then em else b.email)) ∧
    ((∀ ph em, o ≠ DetailOutcome.panel ph em) → enrichDetails b o = b) := by
  cases o
  case panel ph em =>
    refine ⟨?_, ?_, ?_, ?_, ?_, ?_, ?_, ?_, ?_, ?_⟩
    · simp only [enrichDetails]; split_ifs <;> rfl
    · simp only [enrichDetails]; split_ifs <;> rfl
    · simp only [enrichDetails]; split_ifs <;> rfl
    · simp only [enrichDetails]; split_ifs <;> rfl
    · simp only [enrichDetails]; split_ifs <;> rfl
    · simp only [enrichDetails]; split_ifs <;> rfl
    · simp only [enrichDetails]; split_ifs <;> rfl
    · simp only [enrichDetails]; split_ifs <;> rfl
    · intro ph' em' heq
      injection heq with h1 h2
      subst h1
      subst h2
      constructor
      · simp only [enrichDetails]; split_ifs <;> rfl
      · simp only [enrichDetails]; split_ifs <;> rfl
    · intro hno
      exact absurd rfl (hno ph em)
  all_goals
    refine ⟨rfl, rfl, rfl, rfl, rfl, rfl, rfl, rfl, ?_, fun _ => rfl⟩
    intro ph em heq
    simp at heq

/-- Witness for C10: a panel read on a record that already has a phone
keeps the phone, adds the email; a missing feed leaves the record alone. -/
theorem c10_witness :
    (enrichDetails { name := "A", phone := some "111" }
        (DetailOutcome.panel (some "222") (some "a@b.c"))).phone =
      (if optTruthy (some "222") ∧
          ¬ optTruthy (RawResult.phone { name := "A", phone := some "111" }) then some "222"
        else RawResult.phone { name := "A", phone := some "111" }) ∧
    enrichDetails { name := "A" } DetailOutcome.feedMissing = { name := "A" } :=
  ⟨((c10_detail_enrichment_frame { name := "A", phone := some "111" }
      (DetailOutcome.panel (some "222") (some "a@b.c"))).2.2.2.2.2.2.2.2.1
        (some "222") (some "a@b.c") rfl).1,
   (c10_detail_enrichment_frame { name := "A" }
      DetailOutcome.feedMissing).2.2.2.2.2.2.2.2.2
        (fun _ _ h => by simp at h)⟩

/-- C6: with a successful submit, the 2Captcha poll loop returns the token
after exactly 6 polls when the oracle answers not-ready 5 times then
solves; 30 consecutive not-ready answers give failure after exactly 30
polls; the loop never polls more than 30 times; and a response that is
neither solved nor the not-ready sentinel is an immediate terminal
failure. -/
theorem c6_2captcha_poll_bounds :
    (∀ (oracle : Nat → PollResp) (tok : String) (submit : PollResp),
      submit.status = some 1 →
      (∀ k, k < 5 → oracle k = notReadyResp) → oracle 5 = solvedResp tok →
      solveWith2captcha submit oracle = (some tok, 6)) ∧
    (∀ (oracle : Nat → PollResp) (submit : PollResp), submit.status = some 1 →
      (∀ k, k < 30 → oracle k = notReadyResp) →
      solveWith2captcha submit oracle = (none, 30)) ∧
    (∀ (submit : PollResp) (oracle : Nat → PollResp),
      (solveWith2captcha submit oracle).2 ≤ 30) ∧
    (∀ (oracle : Nat → PollResp) (submit : PollResp) (n : Nat),
      submit.status = some 1 → n < 30 →
      (∀ k, k < n → oracle k = notReadyResp) →
      (oracle n).status ≠ some 1 → (oracle n).request ≠ some "CAPCHA_NOT_READY" →
      solveWith2captcha submit oracle = (none, n + 1)) := by
  refine ⟨?_, ?_, ?_, ?_⟩
  · intro oracle tok submit hsub hnr hsolved
    rw [solveWith2captcha, if_neg (by simp [hsub])]
    refine pollLoop_solved oracle tok 5 30 0 (by omega) ?_ ?_
    · intro k hk
      simpa using hnr k hk
    · simpa using hsolved
  · intro oracle submit hsub hnr
    rw [solveWith2captcha, if_neg (by simp [hsub])]
    refine pollLoop_exhausted oracle 30 0 ?_
    intro k hk
    simpa using hnr k hk
  · intro submit oracle
    rw [solveWith2captcha]
    split
    · simp
    · exact pollLoop_le oracle 30 0
  · intro oracle submit n hsub hn hnr hst hreq
    rw [solveWith2captcha, if_neg (by simp [hsub])]
    refine pollLoop_badResponse oracle n 30 0 hn ?_ ?_ ?_
    · intro k hk
      simpa using hnr k hk
    · simpa using hst
    · simpa using hreq

/-- Witness for C6: the concrete five-not-ready-then-token oracle and the
always-not-ready oracle. -/
theorem c6_witness :
    solveWith2captcha (solvedResp "id")
        (fun i => if i < 5 then notReadyResp else solvedResp "tok") = (some "tok", 6) ∧
    solveWith2captcha (solvedResp "id") (fun _ => notReadyResp) = (none, 30) := by
  constructor
  · refine c6_2captcha_poll_bounds.1 _ "tok" _ rfl ?_ ?_
    · intro k hk
      exact if_pos hk
    · exact if_neg (by omega)
  · exact c6_2captcha_poll_bounds.2.1 _ _ rfl (fun k _ => rfl)

/-- Under rotation and a non-empty pool, `get_proxy` is the scan followed
by the full-pool reset. -/
theorem getProxy_rotation_eq (m : ProxyManager) (hne : m.proxies ≠ []) :
    getProxy true m =
      match getProxyLoop m.proxies m.currentIndex m.proxies.length with
      | some i =>
        (m.proxies.get? i, { m with currentIndex := (i + 1) % m.proxies.length })
      | none =>
        ((m.proxies.map fun p => { p with failed_count := 0 }).head?,
          { m with proxies := m.proxies.map fun p => { p with failed_count := 0 } }) := by
  obtain ⟨ps, ci⟩ := m
  cases ps with
  | nil => exact absurd rfl hne
  | cons p0 rest => rfl

/-- C4: with a single configured proxy under rotation, three consecutive
`mark_proxy_failed` calls do not starve `get_proxy`: the whole pool being
ineligible resets every failure counter and returns the first endpoint;
and in general, whenever some proxy is still eligible, `get_proxy` returns
a proxy from the pool with fewer than 3 failures. -/
theorem c4_proxy_reset_and_skip :
    (∀ url : String,
      getProxy true
          (markProxyFailed (markProxyFailed (markProxyFailed
            { proxies := [{ url := url, failed_count := 0 }], currentIndex := 0 } 0) 0) 0) =
        (some { url := url, failed_count := 0 },
          { proxies := [{ url := url, failed_count := 0 }], currentIndex := 0 })) ∧
    (∀ (m : ProxyManager) (q : ProxyInfo), m.currentIndex < m.proxies.length →
      q ∈ m.proxies → q.failed_count < 3 →
      ∃ p, (getProxy true m).1 = some p ∧ p.failed_count < 3 ∧ p ∈ m.proxies) := by
  constructor
  · intro url
    rfl
  · intro m q hidx hq hqc
    have hne : m.proxies ≠ [] := List.ne_nil_of_mem hq
    obtain ⟨j, p, hloop, hget, hpc⟩ := getProxyLoop_finds hidx hq hqc
    rw [getProxy_rotation_eq m hne, hloop]
    obtain ⟨hlt, hgeq⟩ := List.get?_eq_some.mp hget
    exact ⟨p, hget, hpc, hgeq ▸ List.get_mem m.proxies j hlt⟩

/-- Witness for C4: the single-proxy reset scenario at a concrete URL and
the skip property on a two-proxy pool whose first entry is dead. -/
theorem c4_witness :
    getProxy true
        (markProxyFailed (markProxyFailed (markProxyFailed
          { proxies := [{ url := "http://p1", failed_count := 0 }], currentIndex := 0 } 0) 0) 0) =
      (some { url := "http://p1", failed_count := 0 },
        { proxies := [{ url := "http://p1", failed_count := 0 }], currentIndex := 0 }) ∧
    ∃ p, (getProxy true
        { proxies := [{ url := "http://dead", failed_count := 5 },
                      { url := "http://live", failed_count := 0 }],
          currentIndex := 0 }).1 = some p ∧
      p.failed_count < 3 ∧
      p ∈ [({ url := "http://dead", failed_count := 5 } : ProxyInfo),
           { url := "http://live", failed_count := 0 }] :=
  ⟨c4_proxy_reset_and_skip.1 "http://p1",
   c4_proxy_reset_and_skip.2
      { proxies := [{ url := "http://dead", failed_count := 5 },
                    { url := "http://live", failed_count := 0 }], currentIndex := 0 }
      { url := "http://live", failed_count := 0 }
      (by decide) (by decide) (by decide)⟩

/-- Auxiliary induction for C8: every entry of a call trace is a pool
member, the first entry avoids the inherited `_last_ua`, and consecutive
entries differ. -/
theorem uaTrace_spec {agents : List String} {a b : String}
    (ha : a ∈ agents) (hb : b ∈ agents) (hab : a ≠ b) :
    ∀ (picks : List Nat) (last : Option String),
      (∀ x ∈ uaTrace agents picks last, ∃ ua, x = some ua ∧ ua ∈ agents) ∧
      (∀ l y, last = some l → (uaTrace agents picks last).head? = some y →
        y ≠ some l) ∧
      List.Chain' (fun x y => x ≠ y) (uaTrace agents picks last) := by
  intro picks
  induction picks with
  | nil =>
    intro last
    refine ⟨by simp [uaTrace], ?_, by simp [uaTrace]⟩
    intro l y _ hy
    simp [uaTrace] at hy
  | cons pick picks ih =>
    intro last
    obtain ⟨ua, h1, h2, hmem, hne⟩ := getUserAgent_spec ha hb hab last pick
    have htr : uaTrace agents (pick :: picks) last =
        some ua :: uaTrace agents picks (some ua) := by
      simp only [uaTrace]
      rw [h1, h2]
    obtain ⟨ihmem, ihhead, ihchain⟩ := ih (some ua)
    refine ⟨?_, ?_, ?_⟩
    · intro x hx
      rw [htr] at hx
      rcases List.mem_cons.mp hx with hx | hx
      · exact ⟨ua, hx, hmem⟩
      · exact ihmem x hx
    · intro l y hlast hy
      rw [htr] at hy
      simp only [List.head?_cons, Option.some.injEq] at hy
      subst hy
      intro hcon
      injection hcon with hcon
      exact hne l hlast hcon
    · rw [htr]
      rw [List.chain'_cons']
      refine ⟨?_, ihchain⟩
      intro y hy
      have h := ihhead ua y rfl (Option.mem_def.mp hy)
      exact fun hcon => h hcon.symm

/-- C8: on a pool with at least two distinct user agents, every call of
`get_user_agent` returns a pool member, and no call returns the value
returned by the immediately preceding call. -/
theorem c8_user_agent_no_repeat {agents : List String} {a b : String}
    (ha : a ∈ agents) (hb : b ∈ agents) (hab : a ≠ b) (picks : List Nat) :
    (∀ x ∈ uaTrace agents picks none, ∃ ua, x = some ua ∧ ua ∈ agents) ∧
    List.Chain' (fun x y => x ≠ y) (uaTrace agents picks none) :=
  ⟨(uaTrace_spec ha hb hab picks none).1, (uaTrace_spec ha hb hab picks none).2.2⟩

/-- Witness for C8: a three-call trace over the two-element pool. -/
theorem c8_witness :
    (∀ x ∈ uaTrace ["ua1", "ua2"] [0, 0, 0] none,
      ∃ ua, x = some ua ∧ ua ∈ ["ua1", "ua2"]) ∧
    List.Chain' (fun x y => x ≠ y) (uaTrace ["ua1", "ua2"] [0, 0, 0] none) :=
  c8_user_agent_no_repeat (a := "ua1") (b := "ua2")
    (by decide) (by decide) (by decide) [0, 0, 0]

/-- C7: the email finalization of `scrape_website_info` (order-preserving
dedup then cap at 10) is idempotent and always yields at most 10 entries
without duplicates in first-occurrence order (phones: at most 5, deduped);
and re-running `enrich_websites_node` on an already-enriched listing with
the same website data leaves `website_emails` unchanged, which — when set
by enrichment — is a finalized list (at most 10, no duplicates). -/
theorem c7_email_finalization_idempotent :
    (∀ xs : List String, finalizeEmails (finalizeEmails xs) = finalizeEmails xs) ∧
    (∀ xs : List String, (finalizeEmails xs).length ≤ 10 ∧ (finalizeEmails xs).Nodup ∧
      List.Sublist (finalizeEmails xs) xs) ∧
    (∀ xs : List String, finalizePhones (finalizePhones xs) = finalizePhones xs ∧
      (finalizePhones xs).length ≤ 5 ∧ (finalizePhones xs).Nodup) ∧
    (∀ (oracle : String → WebsiteRaw) (r : Listing),
      (enrichOne (fun u => finalizeWebsiteInfo (oracle u))
          (enrichOne (fun u => finalizeWebsiteInfo (oracle u)) r)).website_emails =
        (enrichOne (fun u => finalizeWebsiteInfo (oracle u)) r).website_emails) ∧
    (∀ (oracle : String → WebsiteRaw) (r : Listing) (l : List String),
      r.website_emails = none →
      (enrichOne (fun u => finalizeWebsiteInfo (oracle u)) r).website_emails = some l →
      l.length ≤ 10 ∧ l.Nodup) := by
  refine ⟨finalizeEmails_idem,
    fun xs => ⟨finalizeEmails_length xs, finalizeEmails_nodup xs, finalizeEmails_sublist xs⟩,
    fun xs => ⟨finalizePhones_idem xs, finalizePhones_length xs, finalizePhones_nodup xs⟩,
    fun oracle r => enrichOne_twice_website_emails _ r, ?_⟩
  intro oracle r l hnone hsome
  rw [enrichOne_website_emails] at hsome
  by_cases hskip : r.website = "" ∨ r.website = "N/A" ∨ ¬ pyStartsWith r.website "http"
  · rw [if_pos hskip, hnone] at hsome
    cases hsome
  · rw [if_neg hskip] at hsome
    by_cases hem : (finalizeWebsiteInfo (oracle r.website)).emails ≠ []
    · rw [if_pos hem] at hsome
      injection hsome with hsome
      subst hsome
      exact ⟨finalizeEmails_length _, finalizeEmails_nodup _⟩
    · rw [if_neg hem, hnone] at hsome
      cases hsome

/-- Witness for C7: a duplicate-laden email list and a concrete enrichment
run. -/
theorem c7_witness :
    finalizeEmails (finalizeEmails ["a@x.c", "b@x.c", "a@x.c"]) =
      finalizeEmails ["a@x.c", "b@x.c", "a@x.c"] ∧
    ((fun uaRec : Listing =>
        (enrichOne (fun _ => finalizeWebsiteInfo { emails := ["a@x.c", "a@x.c"] })
            (enrichOne (fun _ => finalizeWebsiteInfo { emails := ["a@x.c", "a@x.c"] })
              uaRec)).website_emails =
          (enrichOne (fun _ => finalizeWebsiteInfo { emails := ["a@x.c", "a@x.c"] })
            uaRec).website_emails)
      (processResult 1 { name := "A", website := some "http://a.example" })) ∧
    (["a@x.c"].length ≤ 10 ∧ (["a@x.c"] : List String).Nodup) :=
  ⟨c7_email_finalization_idempotent.1 ["a@x.c", "b@x.c", "a@x.c"],
   c7_email_finalization_idempotent.2.2.2.1 _ _,
   c7_email_finalization_idempotent.2.2.2.2
     (fun _ => { emails := ["a@x.c", "a@x.c"] })
     (processResult 1 { name := "A", website := some "http://a.example" })
     ["a@x.c"] rfl rfl⟩

/-- Counterexample to C5: a page containing "unusual traffic" and no
vendor-specific marker is classified `(true, unknown)` by the generic
indicator scan (which itself contains "unusual traffic"), not
`(true, recaptcha_v2)`: the dedicated unusual-traffic branch of
`detect_captcha` is unreachable. -/
theorem c5_counterexample :
    recMark "unusual traffic detected from your computer network" = false ∧
    hcapMark "unusual traffic detected from your computer network" = false ∧
    funMark "unusual traffic detected from your computer network" = false ∧
    detectCaptcha "unusual traffic detected from your computer network" =
      (true, some CaptchaType.unknown) ∧
    ((true, some CaptchaType.unknown) :
        Bool × Option CaptchaType) ≠ (true, some CaptchaType.recaptchaV2) := by
  refine ⟨?_, ?_, ?_, ?_, ?_⟩ <;> decide

/-- C5 amended: `detect_captcha` classifies in the order explicit
reCAPTCHA markers (v2 with the api2/anchor marker, else v3), then
hCaptcha, then FunCaptcha, then the generic indicator list (unknown), and
a page matching nothing is reported clear; a page whose content contains
"unusual traffic" with no vendor markers is classified as an unknown
CAPTCHA via the generic indicator list — the dedicated reCAPTCHA-v2
branch for the unusual-traffic page is dead code. -/
theorem c5_amended_classification_order (c : String) :
    (recMark c = true → detectCaptcha c =
      (true, some (if containsLower c "recaptcha/api2/anchor" then CaptchaType.recaptchaV2
        else CaptchaType.recaptchaV3))) ∧
    (recMark c = false → hcapMark c = true →
      detectCaptcha c = (true, some CaptchaType.hcaptcha)) ∧
    (recMark c = false → hcapMark c = false → funMark c = true →
      detectCaptcha c = (true, some CaptchaType.funcaptcha)) ∧
    (recMark c = false → hcapMark c = false → funMark c = false → genericHit c = true →
      detectCaptcha c = (true, some CaptchaType.unknown)) ∧
    (recMark c = false → hcapMark c = false → funMark c = false → genericHit c = false →
      detectCaptcha c = (false, none)) ∧
    (recMark c = false → hcapMark c = false → funMark c = false →
      containsLower c "unusual traffic" = true →
      detectCaptcha c = (true, some CaptchaType.unknown)) := by
  have hmain4 : recMark c = false → hcapMark c = false → funMark c = false →
      genericHit c = true → detectCaptcha c = (true, some CaptchaType.unknown) := by
    intro h1 h2 h3 h4
    have h1' : (containsLower c "g-recaptcha" || containsLower c "grecaptcha") = false := h1
    have h2' : (containsLower c "h-captcha" || containsLower c "hcaptcha") = false := h2
    have h3' : (containsLower c "funcaptcha" || containsLower c "arkoselabs") = false := h3
    have h4' : (CAPTCHA_INDICATORS.any fun ind => containsLower c ind) = true := h4
    simp only [detectCaptcha, h1', h2', h3', h4', Bool.false_eq_true, if_false, if_true]
  refine ⟨?_, ?_, ?_, hmain4, ?_, ?_⟩
  · intro h1
    have h1' : (containsLower c "g-recaptcha" || containsLower c "grecaptcha") = true := h1
    simp only [detectCaptcha, h1', if_true]
    split <;> rfl
  · intro h1 h2
    have h1' : (containsLower c "g-recaptcha" || containsLower c "grecaptcha") = false := h1
    have h2' : (containsLower c "h-captcha" || containsLower c "hcaptcha") = true := h2
    simp only [detectCaptcha, h1', h2', Bool.false_eq_true, if_false, if_true]
  · intro h1 h2 h3
    have h1' : (containsLower c "g-recaptcha" || containsLower c "grecaptcha") = false := h1
    have h2' : (containsLower c "h-captcha" || containsLower c "hcaptcha") = false := h2
    have h3' : (containsLower c "funcaptcha" || containsLower c "arkoselabs") = true := h3
    simp only [detectCaptcha, h1', h2', h3', Bool.false_eq_true, if_false, if_true]
  · intro h1 h2 h3 h4
    have h1' : (containsLower c "g-recaptcha" || containsLower c "grecaptcha") = false := h1
    have h2' : (containsLower c "h-captcha" || containsLower c "hcaptcha") = false := h2
    have h3' : (containsLower c "funcaptcha" || containsLower c "arkoselabs") = false := h3
    have h4' : (CAPTCHA_INDICATORS.any fun ind => containsLower c ind) = false := h4
    have hall := List.any_eq_false.mp h4'
    have hu : containsLower c "unusual traffic" = false := by
      have := hall "unusual traffic" (by decide)
      simpa using this
    have hq : containsLower c "automated queries" = false := by
      have := hall "automated queries" (by decide)
      simpa using this
    have h5' : (containsLower c "unusual traffic" || containsLower c "automated queries") =
        false := by
      rw [hu, hq]
      rfl
    simp only [detectCaptcha, h1', h2', h3', h4', h5', Bool.false_eq_true, if_false]
  · intro h1 h2 h3 hu
    refine hmain4 h1 h2 h3 ?_
    exact List.any_eq_true.mpr ⟨"unusual traffic", by decide, hu⟩

/-- Witness for C5 (amended): concrete contents exercising the
vendor-marker branch and the unusual-traffic-to-unknown branch. -/
theorem c5_witness :
    detectCaptcha "a grecaptcha frame recaptcha/api2/anchor" =
      (true, some (if containsLower "a grecaptcha frame recaptcha/api2/anchor"
          "recaptcha/api2/anchor" then CaptchaType.recaptchaV2 else CaptchaType.recaptchaV3)) ∧
    detectCaptcha "our systems noticed unusual traffic" =
      (true, some CaptchaType.unknown) :=
  ⟨(c5_amended_classification_order "a grecaptcha frame recaptcha/api2/anchor").1 (by decide),
   (c5_amended_classification_order "our systems noticed unusual traffic").2.2.2.2.2
      (by decide) (by decide) (by decide) (by decide)⟩

/-- Counterexample to C3: a listing node with an `aria-label` but no link
element is harvested with `url = ""` (`linkEl ? linkEl.href : ''`), and
`process_results_node` keeps that empty string because the `url` key is
present — the finalized listing's `url` is `""`, not the `"N/A"` sentinel. -/
theorem c3_counterexample :
    (processList 1 (extractResults [({ ariaLabel := "Cafe X" } : Item)])).map Listing.url =
      [""] ∧
    (("" : String) = "N/A") = False := by
  constructor
  · rfl
  · simp

/-- C3 amended: in a finalized listing, every field of the full set other
than `url` that was never observed during scraping equals the sentinel
`"N/A"`; `name` is non-empty (empty-named nodes are dropped); `url`,
however, is always present on the raw record and equals the observed link
href — the empty string, not `"N/A"`, when no link element was observed. -/
theorem c3_amended_sentinel_fields (it : Item) (r : RawResult) (i : Nat)
    (hext : extractItem it = some r) :
    (r.rating = none → (processResult i r).rating = "N/A") ∧
    (r.reviews = none → (processResult i r).reviews = "N/A") ∧
    (r.category = none → (processResult i r).category = "N/A") ∧
    (r.price_level = none → (processResult i r).price_level = "N/A") ∧
    (r.address = none → (processResult i r).address = "N/A") ∧
    (r.phone = none → (processResult i r).phone = "N/A") ∧
    (r.website = none → (processResult i r).website = "N/A") ∧
    (r.email = none → (processResult i r).email = "N/A") ∧
    (processResult i r).name ≠ "" ∧
    (processResult i r).url = it.linkHref.getD "" := by
  simp only [extractItem] at hext
  split at hext
  · rename_i hname
    injection hext with hext
    subst hext
    refine ⟨fun h => by simp only [processResult]; rw [show it.rating = none from h]; rfl,
      fun h => by simp only [processResult]; rw [show it.reviews = none from h]; rfl,
      fun h => by simp only [processResult]; rw [show it.category = none from h]; rfl,
      fun h => by simp only [processResult]; rw [show it.price_level = none from h]; rfl,
      fun h => by simp only [processResult]; rw [show it.address = none from h]; rfl,
      fun h => by simp only [processResult]; rw [show it.phone = none from h]; rfl,
      fun h => by simp only [processResult]; rw [show it.website = none from h]; rfl,
      fun h => rfl,
      hname, rfl⟩
  · cases hext

/-- Witness for C3 (amended): a fully-sparse item observed with a link. -/
theorem c3_witness :
    ((processResult 1 { url := "http://x", name := "A" }).rating = "N/A") ∧
    ((processResult 1 { url := "http://x", name := "A" }).url =
      Option.getD (Item.linkHref { linkHref := some "http://x", ariaLabel := "A" }) "") := by
  have h := c3_amended_sentinel_fields
    { linkHref := some "http://x", ariaLabel := "A" }
    { url := "http://x", name := "A" } 1 rfl
  exact ⟨h.1 rfl, h.2.2.2.2.2.2.2.2.2⟩

end GMaps
